import Mathlib

/-!
Verification of the hvac-db repository: the device-state heartbeat handler
(src/lambda_function.py) and the schema, views and cascade rules declared in
src/alembic/versions/002_init_hvac_timescale.py, shallowly embedded as
executable Lean definitions over list-based tables.

Timestamps are modelled as integers (seconds); SQL NOW() is a parameter `now`.
Numeric payload values (Float / Integer columns) are modelled as `Int`: the
source never computes with them, it only stores and compares them.
-/

namespace HvacDb

/-! ## Data model (tables of 002_init_hvac_timescale.py) -/

/-- Row of the `sites` table. -/
structure Site where
  site_id : String
  display_name : String
  tz : String
  created_at : Int
deriving DecidableEq, Repr

/-- Row of the `devices` table; `site_id` references sites ON DELETE CASCADE. -/
structure Device where
  device_id : String
  site_id : String
  model : Option String
  created_at : Int
deriving DecidableEq, Repr

/-- Row of the `points` table; `site_id` references sites ON DELETE CASCADE,
`device_id` (nullable) references devices ON DELETE CASCADE. -/
structure Point where
  point_id : String
  site_id : String
  device_id : Option String
  point_name : String
  point_type : String
  unit : Option String
  tags : List (String × String)
  active : Bool
  created_at : Int
deriving DecidableEq, Repr

/-- Row of the `measurements` hypertable; primary key (site_id, point_id, ts_utc);
`site_id` references sites ON DELETE CASCADE, `point_id` references points
ON DELETE CASCADE. -/
structure Measurement where
  site_id : String
  point_id : String
  point_name : Option String
  unit : Option String
  ts_utc : Int
  value : Option Int
  quality : Option Int
  schema_version : Int
  meta_hash : Option String
deriving DecidableEq, Repr

/-- Row of the `device_state` table; primary key device_id, which references
devices ON DELETE CASCADE; `site_id` references sites ON DELETE CASCADE;
check constraint: status IN ('ready','degraded','error') (NULL passes). -/
structure DeviceStateRow where
  device_id : String
  site_id : String
  last_seen_ts : Int
  last_upload_ts : Option Int
  queue_depth : Option Int
  agent_version : Option String
  poll_interval_s : Option Int
  cpu_pct : Option Int
  disk_free_gb : Option Int
  status : Option String
  updated_at : Int
deriving DecidableEq, Repr

/-- The database: each table is a list of rows (list order = physical row order). -/
structure Database where
  sites : List Site
  devices : List Device
  points : List Point
  measurements : List Measurement
  device_state : List DeviceStateRow
deriving DecidableEq, Repr

/-! ## Heartbeat payload and the Lambda handler (src/lambda_function.py) -/

/-- One heartbeat record, as the handler reads it with `.get`: every field can
be absent (None). -/
structure HeartbeatRecord where
  device_id : Option String
  site_id : Option String
  status : Option String
  agent_version : Option String
  cpu_pct : Option Int
  disk_free_gb : Option Int
  queue_depth : Option Int
  poll_interval_s : Option Int
  last_upload_ts : Option Int
deriving DecidableEq, Repr

/-- The incoming event: `batch rs` models an event carrying a `devices` key
(with list rs); `single r` models an event without one. -/
inductive Event where
  | single : HeartbeatRecord → Event
  | batch : List HeartbeatRecord → Event
deriving DecidableEq, Repr

/-- Python truthiness of an optional string (`if not device_id`):
None and the empty string are falsy. -/
def truthy : Option String → Bool
  | none => false
  | some s => !(s.isEmpty)

/-- The handler's per-entry guard `if not device_id or not site_id: continue`,
negated: an entry is processed when both identifiers are truthy. -/
def wellFormed (r : HeartbeatRecord) : Bool :=
  truthy r.device_id && truthy r.site_id

/-- The device_state check constraint `status IN ('ready','degraded','error')`;
a NULL status satisfies a SQL check constraint. -/
def statusOk : Option String → Bool
  | none => true
  | some s => s == "ready" || s == "degraded" || s == "error"

/-- The ON CONFLICT (device_id) DO UPDATE branch of the upsert SQL:
last_seen_ts = NOW(), every optional column x becomes
COALESCE(EXCLUDED.x, device_state.x), updated_at = NOW(); site_id is not in
the SET list and is untouched. -/
def mergeRow (old : DeviceStateRow) (now : Int) (r : HeartbeatRecord) : DeviceStateRow :=
  { old with
    last_seen_ts := now
    status := r.status.orElse (fun _ => old.status)
    agent_version := r.agent_version.orElse (fun _ => old.agent_version)
    cpu_pct := r.cpu_pct.orElse (fun _ => old.cpu_pct)
    disk_free_gb := r.disk_free_gb.orElse (fun _ => old.disk_free_gb)
    queue_depth := r.queue_depth.orElse (fun _ => old.queue_depth)
    poll_interval_s := r.poll_interval_s.orElse (fun _ => old.poll_interval_s)
    last_upload_ts := r.last_upload_ts.orElse (fun _ => old.last_upload_ts)
    updated_at := now }

/-- The INSERT branch of the upsert SQL: the new row carries the supplied
values, NULL for every unsupplied optional field, and NOW() for both
last_seen_ts and updated_at. -/
def insertedRow (now : Int) (did sid : String) (r : HeartbeatRecord) : DeviceStateRow :=
  { device_id := did
    site_id := sid
    last_seen_ts := now
    last_upload_ts := r.last_upload_ts
    queue_depth := r.queue_depth
    agent_version := r.agent_version
    poll_interval_s := r.poll_interval_s
    cpu_pct := r.cpu_pct
    disk_free_gb := r.disk_free_gb
    status := r.status
    updated_at := now }

/-- One execution of the upsert SQL. A constraint violation (status check
constraint on the resulting row; on insert also the foreign keys to devices
and sites) raises, which psycopg2 surfaces as psycopg2.Error; that is the
`Except.error` case. On conflict PostgreSQL re-checks only the check
constraint, since the update does not change device_id or site_id. -/
def upsertDeviceState (db : Database) (now : Int) (did sid : String)
    (r : HeartbeatRecord) : Except Unit Database :=
  match db.device_state.find? (fun x => x.device_id == did) with
  | some old =>
    let merged := mergeRow old now r
    if statusOk merged.status then
      Except.ok { db with
        device_state := db.device_state.map (fun x => if x.device_id == did then merged else x) }
    else Except.error ()
  | none =>
    let row := insertedRow now did sid r
    if statusOk row.status && db.devices.any (fun d => d.device_id == did)
        && db.sites.any (fun s => s.site_id == sid) then
      Except.ok { db with device_state := db.device_state ++ [row] }
    else Except.error ()

/-- The handler's loop over `devices_to_update`, run on a working copy of the
database (the open transaction): a malformed entry is skipped (logged), a
well-formed entry is upserted and its device_id appended to
`updated_devices`; the first raised database error aborts the loop. -/
def processRecords (now : Int) (db : Database) :
    List HeartbeatRecord → Except Unit (Database × List String)
  | [] => Except.ok (db, [])
  | r :: rs =>
    if wellFormed r then
      match upsertDeviceState db now (r.device_id.getD "") (r.site_id.getD "") r with
      | Except.error e => Except.error e
      | Except.ok db2 =>
        match processRecords now db2 rs with
        | Except.error e => Except.error e
        | Except.ok (db3, ids) => Except.ok (db3, (r.device_id.getD "") :: ids)
    else
      processRecords now db rs

/-- The handler's three response shapes: the 400 validation error
(`device_id and site_id are required`), the 200 success body
(message with len(updated_devices), the updated_devices list, a timestamp),
and the 500 `Database error` body for psycopg2.Error. -/
inductive Response where
  | validationError : Response
  | success : List String → Response
  | dbError : Response
deriving DecidableEq, Repr

def Response.statusCode : Response → Nat
  | Response.validationError => 400
  | Response.success _ => 200
  | Response.dbError => 500

def Response.isValidationError : Response → Bool
  | Response.validationError => true
  | _ => false

/-- The device count reported in the success message
`Heartbeat updated for {len(updated_devices)} device(s)`. -/
def Response.count : Response → Nat
  | Response.success l => l.length
  | _ => 0

/-- Choice of `devices_to_update`: with a `devices` key the event's list is
taken as-is; otherwise the single-record guard rejects a falsy device_id or
site_id with the 400 validation response, else the event itself is the one
entry. -/
def devicesToUpdate : Event → Except Response (List HeartbeatRecord)
  | Event.batch rs => Except.ok rs
  | Event.single r =>
    if truthy r.device_id && truthy r.site_id then Except.ok [r]
    else Except.error Response.validationError

/-- Outcome of the transaction against the pre-invocation database `db`:
`conn.commit()` runs only after the whole loop succeeded, so a successful
loop commits its final database and returns the 200 body, while a database
error mid-loop reaches the psycopg2.Error handler before the commit, the
transaction is discarded, and `db` is returned unchanged with the 500 body. -/
def commitResult (db : Database) : Except Unit (Database × List String) → Response × Database
  | Except.error _ => (Response.dbError, db)
  | Except.ok (db2, ids) => (Response.success ids, db2)

/-- The Lambda handler: resolve `devices_to_update`, run the loop in one
transaction, commit once after the loop. -/
def lambda_handler (e : Event) (now : Int) (db : Database) : Response × Database :=
  match devicesToUpdate e with
  | Except.error resp => (resp, db)
  | Except.ok rs => commitResult db (processRecords now db rs)

/-! ## Views of 002_init_hvac_timescale.py -/

/-- Output row of the v_devices_stale view:
device_id, site_id, last_seen_ts, and age = now() - last_seen_ts. -/
structure StaleRow where
  device_id : String
  site_id : String
  last_seen_ts : Int
  age : Int
deriving DecidableEq, Repr

def staleRowOf (now : Int) (r : DeviceStateRow) : StaleRow :=
  { device_id := r.device_id
    site_id := r.site_id
    last_seen_ts := r.last_seen_ts
    age := now - r.last_seen_ts }

/-- v_devices_stale: SELECT device_id, site_id, last_seen_ts,
now() - last_seen_ts AS age FROM device_state
WHERE now() - last_seen_ts > interval '120 seconds'. The view has no
ORDER BY, so rows come out in the underlying table order. -/
def v_devices_stale (db : Database) (now : Int) : List StaleRow :=
  (db.device_state.filter (fun r => 120 < now - r.last_seen_ts)).map (staleRowOf now)

/-- Output row of the v_point_latest materialized view. -/
structure LatestRow where
  point_id : String
  site_id : String
  point_name : Option String
  unit : Option String
  last_ts_utc : Int
  value : Option Int
  quality : Option Int
deriving DecidableEq, Repr

def latestRowOf (m : Measurement) : LatestRow :=
  { point_id := m.point_id
    site_id := m.site_id
    point_name := m.point_name
    unit := m.unit
    last_ts_utc := m.ts_utc
    value := m.value
    quality := m.quality }

/-- The sort key ORDER BY point_id, ts_utc DESC as a Boolean preorder:
a comes no later than b when a.point_id < b.point_id, or the point_ids are
equal and a.ts_utc ≥ b.ts_utc. Rows tied on both columns are equivalent
under this preorder: the DDL gives no tiebreaker between them. -/
def rowLE (a b : Measurement) : Bool :=
  if a.point_id == b.point_id then decide (b.ts_utc ≤ a.ts_utc)
  else decide (a.point_id < b.point_id)

/-- DISTINCT ON (point_id) over an already ordered row list: keep the first
row of each point_id run, drop the rest. -/
def distinctOnPoint : List Measurement → List Measurement
  | [] => []
  | m :: rest =>
    m :: distinctOnPoint (rest.filter (fun x => !(x.point_id == m.point_id)))
termination_by l => l.length
decreasing_by
  simp only [List.length_cons]
  exact Nat.lt_succ_of_le (List.length_filter_le _ _)

/-- v_point_latest: SELECT DISTINCT ON (m.point_id) ... FROM measurements m
ORDER BY m.point_id, m.ts_utc DESC, evaluated over the physical row list
`ms`. One admissible engine behaviour is modelled: a stable sort by the
ORDER BY key, so rows tied on (point_id, ts_utc) stay in physical order and
DISTINCT ON keeps the physically first of the tied rows; the DDL itself does
not constrain which tied row is kept. -/
def v_point_latest (ms : List Measurement) : List LatestRow :=
  (distinctOnPoint (ms.mergeSort rowLE)).map latestRowOf

/-! ## Measurement writes -/

/-- The measurements primary key (site_id, point_id, ts_utc). -/
def sameKey (a b : Measurement) : Bool :=
  a.site_id == b.site_id && a.point_id == b.point_id && a.ts_utc == b.ts_utc

/-- Every pair of distinct rows has distinct keys: the PRIMARY KEY
(site_id, point_id, ts_utc) constraint of the measurements table. -/
def uniqKeys (ms : List Measurement) : Prop :=
  List.Pairwise (fun a b => sameKey a b = false) ms

/-- Modelled from the spec: the measurement append call is not in src/ (the
spec notes it is "not detailed in source but implied by the schema"; only the
measurements table and its primary key are declared there). Per the spec,
"if a row with the same (site, point, timestamp) key already exists, the
write replaces it ...; otherwise it inserts". -/
def writeMeasurement (ms : List Measurement) (m : Measurement) : List Measurement :=
  if ms.any (fun x => sameKey x m) then ms.map (fun x => if sameKey x m then m else x)
  else ms ++ [m]

/-! ## Site deletion cascade

PostgreSQL ON DELETE CASCADE semantics applied to the foreign keys declared
in the migration: devices.site_id → sites, points.site_id → sites,
points.device_id → devices, measurements.site_id → sites,
measurements.point_id → points, device_state.site_id → sites,
device_state.device_id → devices — all CASCADE. -/

/-- DELETE FROM sites WHERE site_id = s, with the declared cascades: devices
of the site go, points of the site or of a deleted device go, measurements
of the site or of a deleted point go, device_state rows of the site or of a
deleted device go. -/
def deleteSite (db : Database) (s : String) : Database :=
  let deadDevIds := (db.devices.filter (fun d => d.site_id == s)).map (fun d => d.device_id)
  let pointDead := fun (p : Point) =>
    p.site_id == s || (match p.device_id with
                       | some d => deadDevIds.contains d
                       | none => false)
  let deadPtIds := (db.points.filter pointDead).map (fun p => p.point_id)
  { sites := db.sites.filter (fun x => !(x.site_id == s))
    devices := db.devices.filter (fun d => !(d.site_id == s))
    points := db.points.filter (fun p => !(pointDead p))
    measurements := db.measurements.filter
      (fun m => !(m.site_id == s || deadPtIds.contains m.point_id))
    device_state := db.device_state.filter
      (fun r => !(r.site_id == s || deadDevIds.contains r.device_id)) }

/-! ## Concrete fixtures used by witnesses -/

def sampleSite : Site :=
  { site_id := "building-a", display_name := "Building A", tz := "UTC", created_at := 0 }

def sampleDevice : Device :=
  { device_id := "hvac-001", site_id := "building-a", model := some "m1", created_at := 0 }

def sampleDevice2 : Device :=
  { device_id := "hvac-002", site_id := "building-a", model := none, created_at := 0 }

def sampleOldRow : DeviceStateRow :=
  { device_id := "hvac-001", site_id := "building-a", last_seen_ts := 50,
    last_upload_ts := none, queue_depth := none, agent_version := some "1.0.0",
    poll_interval_s := none, cpu_pct := none, disk_free_gb := none,
    status := some "ready", updated_at := 50 }

/-- Database with one registered site, two devices, one device_state row. -/
def dbWithRow : Database :=
  { sites := [sampleSite], devices := [sampleDevice, sampleDevice2],
    points := [], measurements := [], device_state := [sampleOldRow] }

/-- Same catalog but device_state is still empty. -/
def dbEmptyState : Database :=
  { sites := [sampleSite], devices := [sampleDevice, sampleDevice2],
    points := [], measurements := [], device_state := [] }

/-- Heartbeat that reports only a status (all other optional fields absent). -/
def hbStatusOnly : HeartbeatRecord :=
  { device_id := some "hvac-001", site_id := some "building-a",
    status := some "degraded", agent_version := none, cpu_pct := none,
    disk_free_gb := none, queue_depth := none, poll_interval_s := none,
    last_upload_ts := none }

/-! ## Helper lemmas -/

/-- Replacing the first row found under a key by a row with the same key
makes that row the one found afterwards. -/
theorem find_of_map_replace (l : List DeviceStateRow) (did : String)
    (old m : DeviceStateRow) (hm : (m.device_id == did) = true)
    (h : l.find? (fun x => x.device_id == did) = some old) :
    (l.map (fun x => if x.device_id == did then m else x)).find?
      (fun x => x.device_id == did) = some m := by
  induction l with
  | nil => simp at h
  | cons a l ih =>
    simp only [List.map_cons]
    by_cases ha : (a.device_id == did) = true
    · rw [if_pos ha]
      exact @List.find?_cons_of_pos DeviceStateRow (fun x => x.device_id == did) m _ hm
    · rw [if_neg ha]
      rw [@List.find?_cons_of_neg DeviceStateRow (fun x => x.device_id == did) a l ha] at h
      rw [@List.find?_cons_of_neg DeviceStateRow (fun x => x.device_id == did) a
        (l.map (fun x => if x.device_id == did then m else x)) ha]
      exact ih h

/-! ## C1 -/

/-- C1: when the device already has a device_state row, a successful
reconciliation leaves the stored row with last_seen_ts and updated_at set to
the current time, every present optional field overwritten by the heartbeat
value (Option.orElse keeps a present incoming value), and every absent
optional field preserved from the old row. -/
theorem C1_existing_row_merge (db db2 : Database) (now : Int) (did sid : String)
    (r : HeartbeatRecord) (old : DeviceStateRow)
    (hfind : db.device_state.find? (fun x => x.device_id == did) = some old)
    (hok : upsertDeviceState db now did sid r = Except.ok db2) :
    db2.device_state.find? (fun x => x.device_id == did) =
      some { old with
        last_seen_ts := now
        status := r.status.orElse (fun _ => old.status)
        agent_version := r.agent_version.orElse (fun _ => old.agent_version)
        cpu_pct := r.cpu_pct.orElse (fun _ => old.cpu_pct)
        disk_free_gb := r.disk_free_gb.orElse (fun _ => old.disk_free_gb)
        queue_depth := r.queue_depth.orElse (fun _ => old.queue_depth)
        poll_interval_s := r.poll_interval_s.orElse (fun _ => old.poll_interval_s)
        last_upload_ts := r.last_upload_ts.orElse (fun _ => old.last_upload_ts)
        updated_at := now } := by
  simp only [upsertDeviceState, hfind] at hok
  by_cases hst : statusOk (mergeRow old now r).status = true
  · rw [if_pos hst] at hok
    injection hok with hok2
    subst hok2
    have hdev := List.find?_some hfind
    exact find_of_map_replace _ _ old _ hdev hfind
  · rw [if_neg hst] at hok
    simp at hok

/-- The row expected after merging hbStatusOnly into sampleOldRow at time 100. -/
def mergedSample : DeviceStateRow :=
  { sampleOldRow with
    last_seen_ts := 100
    status := some "degraded"
    updated_at := 100 }

/-- dbWithRow after the merge. -/
def dbAfterMerge : Database :=
  { dbWithRow with device_state := [mergedSample] }

/-- Witness for C1 at a concrete input: an existing row with
agent_version "1.0.0" and status "ready" receives a heartbeat carrying only
status "degraded"; afterwards status is overwritten, agent_version is kept,
and both timestamps read 100. -/
theorem C1_witness :
    dbAfterMerge.device_state.find?
      (fun x => x.device_id == "hvac-001") =
      some { sampleOldRow with
        last_seen_ts := 100
        status := (hbStatusOnly.status).orElse (fun _ => sampleOldRow.status)
        agent_version := (hbStatusOnly.agent_version).orElse (fun _ => sampleOldRow.agent_version)
        cpu_pct := (hbStatusOnly.cpu_pct).orElse (fun _ => sampleOldRow.cpu_pct)
        disk_free_gb := (hbStatusOnly.disk_free_gb).orElse (fun _ => sampleOldRow.disk_free_gb)
        queue_depth := (hbStatusOnly.queue_depth).orElse (fun _ => sampleOldRow.queue_depth)
        poll_interval_s := (hbStatusOnly.poll_interval_s).orElse (fun _ => sampleOldRow.poll_interval_s)
        last_upload_ts := (hbStatusOnly.last_upload_ts).orElse (fun _ => sampleOldRow.last_upload_ts)
        updated_at := 100 } :=
  C1_existing_row_merge dbWithRow _ 100 "hvac-001" "building-a" hbStatusOnly
    sampleOldRow (by decide) (by rfl)

/-! ## C7 -/

/-- C7: when the device has no device_state row yet, a successful
reconciliation appends exactly one new row, carrying the supplied identifiers
and field values, none (SQL NULL) for every unsupplied optional field, and
the current time in last_seen_ts and updated_at. -/
theorem C7_new_row_insert (db db2 : Database) (now : Int) (did sid : String)
    (r : HeartbeatRecord)
    (hfind : db.device_state.find? (fun x => x.device_id == did) = none)
    (hok : upsertDeviceState db now did sid r = Except.ok db2) :
    db2.device_state = db.device_state ++
      [{ device_id := did
         site_id := sid
         last_seen_ts := now
         last_upload_ts := r.last_upload_ts
         queue_depth := r.queue_depth
         agent_version := r.agent_version
         poll_interval_s := r.poll_interval_s
         cpu_pct := r.cpu_pct
         disk_free_gb := r.disk_free_gb
         status := r.status
         updated_at := now }] := by
  simp only [upsertDeviceState, hfind] at hok
  by_cases hc : (statusOk (insertedRow now did sid r).status
      && db.devices.any (fun d => d.device_id == did)
      && db.sites.any (fun s => s.site_id == sid)) = true
  · rw [if_pos hc] at hok
    injection hok with hok2
    subst hok2
    rfl
  · rw [if_neg hc] at hok
    simp at hok

/-- dbEmptyState after the insert branch of the upsert. -/
def dbAfterInsert : Database :=
  { dbEmptyState with
    device_state := [insertedRow 100 "hvac-001" "building-a" hbStatusOnly] }

/-- Witness for C7 at a concrete input: reconciling a device with no
device_state row appends one row whose unsupplied fields are all none. -/
theorem C7_witness :
    dbAfterInsert.device_state =
      dbEmptyState.device_state ++
      [{ device_id := "hvac-001"
         site_id := "building-a"
         last_seen_ts := 100
         last_upload_ts := hbStatusOnly.last_upload_ts
         queue_depth := hbStatusOnly.queue_depth
         agent_version := hbStatusOnly.agent_version
         poll_interval_s := hbStatusOnly.poll_interval_s
         cpu_pct := hbStatusOnly.cpu_pct
         disk_free_gb := hbStatusOnly.disk_free_gb
         status := hbStatusOnly.status
         updated_at := 100 }] :=
  C7_new_row_insert dbEmptyState _ 100 "hvac-001" "building-a" hbStatusOnly
    (by decide) (by rfl)

/-! ## Batch-processing lemmas -/

/-- Second well-formed heartbeat fixture, for another device of the site. -/
def hbGood2 : HeartbeatRecord :=
  { device_id := some "hvac-002", site_id := some "building-a",
    status := some "ready", agent_version := none, cpu_pct := some 12,
    disk_free_gb := none, queue_depth := none, poll_interval_s := none,
    last_upload_ts := none }

/-- Malformed heartbeat: device_id missing. -/
def hbMissingId : HeartbeatRecord :=
  { device_id := none, site_id := some "building-a",
    status := some "ready", agent_version := none, cpu_pct := none,
    disk_free_gb := none, queue_depth := none, poll_interval_s := none,
    last_upload_ts := none }

/-- Heartbeat with a status outside the check-constraint enumeration. -/
def hbBadStatus : HeartbeatRecord :=
  { device_id := some "hvac-001", site_id := some "building-a",
    status := some "offline", agent_version := none, cpu_pct := none,
    disk_free_gb := none, queue_depth := none, poll_interval_s := none,
    last_upload_ts := none }

/-- Skipping malformed entries is the same as processing only the
well-formed ones. -/
theorem processRecords_eq_filter (now : Int) (rs : List HeartbeatRecord) :
    ∀ db, processRecords now db rs = processRecords now db (rs.filter wellFormed) := by
  induction rs with
  | nil => intro db; rfl
  | cons r rs ih =>
    intro db
    by_cases hwf : wellFormed r = true
    · rw [List.filter_cons_of_pos hwf]
      simp only [processRecords]
      rw [if_pos hwf, if_pos hwf]
      simp only [ih]
    · rw [List.filter_cons_of_neg hwf]
      simp only [processRecords]
      rw [if_neg hwf]
      exact ih db

/-- On success, the reported id list is exactly the extracted device_id of
every well-formed entry, in order. -/
theorem processRecords_ids (now : Int) (rs : List HeartbeatRecord) :
    ∀ db db2 ids, processRecords now db rs = Except.ok (db2, ids) →
      ids = (rs.filter wellFormed).map (fun r => r.device_id.getD "") := by
  induction rs with
  | nil =>
    intro db db2 ids h
    simp only [processRecords] at h
    injection h with h2
    injection h2 with ha hb
    simp only [List.filter_nil, List.map_nil]
    exact hb.symm
  | cons r rs ih =>
    intro db db2 ids h
    simp only [processRecords] at h
    by_cases hwf : wellFormed r = true
    · rw [if_pos hwf] at h
      rw [List.filter_cons_of_pos hwf, List.map_cons]
      split at h
      · exact absurd h (by simp)
      · rename_i dbX hup
        split at h
        · exact absurd h (by simp)
        · rename_i val db3 idsX hrec
          injection h with h2
          injection h2 with ha hb
          rw [← hb]
          rw [ih dbX db3 idsX hrec]
    · rw [if_neg hwf] at h
      rw [List.filter_cons_of_neg hwf]
      exact ih db db2 ids h

/-- The commit step never produces the validation response: a 400 can only
come from the single-record guard, before the database is touched. -/
theorem commit_not_validation (db : Database) (x : Except Unit (Database × List String)) :
    (commitResult db x).1.isValidationError = false := by
  cases x with
  | error e => rfl
  | ok p =>
    obtain ⟨db2, ids⟩ := p
    rfl

/-- Handler equation: a well-formed single record is processed as the
one-entry list [r]. -/
theorem lambda_handler_single_wf (r : HeartbeatRecord) (hwf : wellFormed r = true)
    (now : Int) (db : Database) :
    lambda_handler (Event.single r) now db = commitResult db (processRecords now db [r]) := by
  simp only [lambda_handler, devicesToUpdate]
  rw [if_pos (show (truthy r.device_id && truthy r.site_id) = true from hwf)]

/-- Handler equation: a malformed single record is rejected with the 400
validation response and the database untouched. -/
theorem lambda_handler_single_malformed (r : HeartbeatRecord)
    (hwf : wellFormed r = false) (now : Int) (db : Database) :
    lambda_handler (Event.single r) now db = (Response.validationError, db) := by
  have hwf2 : ¬(truthy r.device_id && truthy r.site_id) = true := by
    intro hcontra
    rw [show (truthy r.device_id && truthy r.site_id) = wellFormed r from rfl, hwf] at hcontra
    cases hcontra
  simp only [lambda_handler, devicesToUpdate]
  rw [if_neg hwf2]

/-- Handler equation: an event with a devices key goes straight to the loop. -/
theorem lambda_handler_batch (rs : List HeartbeatRecord) (now : Int) (db : Database) :
    lambda_handler (Event.batch rs) now db = commitResult db (processRecords now db rs) :=
  rfl

/-! ## C2 -/

/-- C2: the handler returns the 400 validation response exactly when the
event is a single (non-batch) record whose device_id or site_id fails the
handler's presence guard; for a batch, processing the entries equals
processing only the well-formed ones (malformed ones are skipped), and a
success reports exactly the device ids of the well-formed entries that were
reconciled. -/
theorem C2_validation_iff_and_batch_skip (e : Event) (now : Int) (db : Database) :
    ((lambda_handler e now db).1.isValidationError = true ↔
      ∃ r, e = Event.single r ∧ wellFormed r = false)
    ∧ (∀ rs, e = Event.batch rs →
        processRecords now db rs = processRecords now db (rs.filter wellFormed)
        ∧ ∀ db2 ids, processRecords now db rs = Except.ok (db2, ids) →
            ids = (rs.filter wellFormed).map (fun r => r.device_id.getD "")) := by
  constructor
  · cases e with
    | single r =>
      by_cases hwf : wellFormed r = true
      · rw [lambda_handler_single_wf r hwf now db, commit_not_validation]
        constructor
        · intro hcontra
          exact absurd hcontra (by simp)
        · rintro ⟨r2, hr2, hwf2⟩
          injection hr2 with hr3
          subst hr3
          rw [hwf] at hwf2
          exact absurd hwf2 (by simp)
      · rw [lambda_handler_single_malformed r (by simpa using hwf) now db]
        constructor
        · intro _
          exact ⟨r, rfl, by simpa using hwf⟩
        · intro _
          rfl
    | batch rs =>
      rw [lambda_handler_batch, commit_not_validation]
      constructor
      · intro hcontra
        exact absurd hcontra (by simp)
      · rintro ⟨r2, hr2, _⟩
        cases hr2
  · intro rs he
    subst he
    exact ⟨processRecords_eq_filter now rs db,
      fun db2 ids h => processRecords_ids now rs db db2 ids h⟩

/-- Witness for C2 at a concrete input: a batch of one well-formed entry and
one entry missing device_id is not a validation error, and is processed
exactly like the batch holding only the well-formed entry. -/
theorem C2_witness :
    (lambda_handler (Event.batch [hbGood2, hbMissingId]) 100 dbWithRow).1.isValidationError
      = false
    ∧ processRecords 100 dbWithRow [hbGood2, hbMissingId] =
        processRecords 100 dbWithRow [hbGood2] := by
  have h := C2_validation_iff_and_batch_skip (Event.batch [hbGood2, hbMissingId]) 100 dbWithRow
  constructor
  · cases hval : (lambda_handler (Event.batch [hbGood2, hbMissingId]) 100 dbWithRow).1.isValidationError with
    | false => rfl
    | true =>
      obtain ⟨r, hr, _⟩ := h.1.mp hval
      cases hr
  · have h2 := (h.2 [hbGood2, hbMissingId] rfl).1
    rw [h2]
    rfl

/-! ## C9 -/

/-- An all-malformed batch skips every entry and leaves the working database
untouched, producing the empty id list. -/
theorem processRecords_all_malformed (now : Int) (rs : List HeartbeatRecord)
    (h : ∀ r ∈ rs, wellFormed r = false) :
    ∀ db, processRecords now db rs = Except.ok (db, []) := by
  induction rs with
  | nil => intro db; rfl
  | cons r rs ih =>
    intro db
    have hr : wellFormed r = false := h r (List.mem_cons_self r rs)
    have hr2 : ¬ wellFormed r = true := by simp [hr]
    simp only [processRecords]
    rw [if_neg hr2]
    exact ih (fun x hx => h x (List.mem_cons_of_mem r hx)) db

/-- C9: an event with a `devices` key never reaches the single-record
validation branch: even a batch in which every entry lacks device_id or
site_id is answered with statusCode 200, an empty updated_devices list and a
reconciled count of 0 (and the stored state is untouched). -/
theorem C9_batch_bypasses_validation (rs : List HeartbeatRecord) (now : Int)
    (db : Database) (h : ∀ r ∈ rs, wellFormed r = false) :
    lambda_handler (Event.batch rs) now db = (Response.success [], db)
    ∧ (lambda_handler (Event.batch rs) now db).1.statusCode = 200
    ∧ (lambda_handler (Event.batch rs) now db).1.count = 0
    ∧ (lambda_handler (Event.batch rs) now db).1.isValidationError = false := by
  have hmain : lambda_handler (Event.batch rs) now db = (Response.success [], db) := by
    rw [lambda_handler_batch, processRecords_all_malformed now rs h db]
    rfl
  refine ⟨hmain, ?_, ?_, ?_⟩ <;> rw [hmain] <;> rfl

/-- Witness for C9 at a concrete input: a batch of two entries both missing
an identifier returns 200 with no devices and count 0. -/
theorem C9_witness :
    lambda_handler (Event.batch [hbMissingId, hbMissingId]) 100 dbWithRow =
      (Response.success [], dbWithRow)
    ∧ (lambda_handler (Event.batch [hbMissingId, hbMissingId]) 100 dbWithRow).1.count = 0 := by
  have h := C9_batch_bypasses_validation [hbMissingId, hbMissingId] 100 dbWithRow
    (by decide)
  exact ⟨h.1, h.2.2.1⟩

/-! ## C10 -/

/-- C10: all upserts of one invocation run in a single transaction committed
after the loop: if processing the batch raises a database error at any entry,
the handler answers with the 500 database-error response and the stored
database is exactly the pre-invocation one — no entry's update is committed. -/
theorem C10_error_discards_whole_batch (rs : List HeartbeatRecord) (now : Int)
    (db : Database) (h : processRecords now db rs = Except.error ()) :
    lambda_handler (Event.batch rs) now db = (Response.dbError, db)
    ∧ (lambda_handler (Event.batch rs) now db).1.statusCode = 500 := by
  have hmain : lambda_handler (Event.batch rs) now db = (Response.dbError, db) := by
    rw [lambda_handler_batch, h]
    rfl
  exact ⟨hmain, by rw [hmain]; rfl⟩

/-- Witness for C10 at a concrete input: in a batch whose first entry upserts
fine and whose second entry violates the status check constraint, the handler
returns the 500 response and the database is unchanged — the first device's
update is not committed. -/
theorem C10_witness :
    lambda_handler (Event.batch [hbGood2, hbBadStatus]) 100 dbWithRow =
      (Response.dbError, dbWithRow)
    ∧ upsertDeviceState dbWithRow 100 "hvac-002" "building-a" hbGood2 =
        Except.ok { dbWithRow with
          device_state := dbWithRow.device_state ++
            [insertedRow 100 "hvac-002" "building-a" hbGood2] } := by
  have h := C10_error_discards_whole_batch [hbGood2, hbBadStatus] 100 dbWithRow (by rfl)
  exact ⟨h.1, by rfl⟩

/-! ## C3 -/

/-- A heartbeat whose status is present but outside the enumeration always
makes the upsert raise: in the update branch the coalesced status is the
incoming one and fails the check constraint, in the insert branch the new
row's status fails it. -/
theorem upsert_error_of_bad_status (db : Database) (now : Int) (did sid : String)
    (r : HeartbeatRecord) (v : String) (hst : r.status = some v)
    (hbad : statusOk (some v) = false) :
    upsertDeviceState db now did sid r = Except.error () := by
  cases hfind : db.device_state.find? (fun x => x.device_id == did) with
  | some old =>
    have hm : (mergeRow old now r).status = some v := by
      show r.status.orElse (fun _ => old.status) = some v
      rw [hst]
      rfl
    simp only [upsertDeviceState, hfind]
    rw [hm, hbad]
    simp
  | none =>
    have hi : (insertedRow now did sid r).status = some v := hst
    simp only [upsertDeviceState, hfind]
    rw [hi, hbad]
    simp

/-- If some well-formed entry of the list carries an invalid status, the loop
as a whole raises a database error. -/
theorem processRecords_error_of_bad_status (now : Int) (r : HeartbeatRecord)
    (v : String) (hwf : wellFormed r = true) (hst : r.status = some v)
    (hbad : statusOk (some v) = false) :
    ∀ rs, r ∈ rs → ∀ db, processRecords now db rs = Except.error () := by
  intro rs
  induction rs with
  | nil => intro hr; cases hr
  | cons a rs ih =>
    intro hr db
    simp only [processRecords]
    rcases List.mem_cons.mp hr with hra | hrs
    · subst hra
      rw [if_pos hwf]
      rw [upsert_error_of_bad_status db now _ _ r v hst hbad]
    · by_cases hwfa : wellFormed a = true
      · rw [if_pos hwfa]
        simp only [ih hrs]
        cases hup : upsertDeviceState db now (a.device_id.getD "") (a.site_id.getD "") a with
        | error e => rfl
        | ok dbX => rfl
      · rw [if_neg hwfa]
        exact ih hrs db

/-- Counterexample to C3 as stated: a single heartbeat for a registered
device with status "offline" (outside the enumeration) is answered with the
500 database-error response, not with a validation error; the database is
returned unchanged. -/
theorem C3_counterexample :
    (lambda_handler (Event.single hbBadStatus) 100 dbWithRow).1.isValidationError = false
    ∧ lambda_handler (Event.single hbBadStatus) 100 dbWithRow = (Response.dbError, dbWithRow)
    ∧ (Response.dbError).statusCode = 500 := by
  refine ⟨by rfl, by rfl, rfl⟩

/-- C3 amended: a heartbeat whose status is present but outside
{ready, degraded, error} is never silently accepted — the check constraint
makes the whole call fail with the 500 database-error response (not the 400
validation response), and no storage mutation from the invocation is applied:
the database is returned exactly as it was. -/
theorem C3_invalid_status_rejected (e : Event) (now : Int) (db : Database)
    (rs : List HeartbeatRecord) (r : HeartbeatRecord) (v : String)
    (hdev : devicesToUpdate e = Except.ok rs) (hr : r ∈ rs)
    (hwf : wellFormed r = true) (hst : r.status = some v)
    (hbad : statusOk (some v) = false) :
    lambda_handler e now db = (Response.dbError, db) := by
  have hperr : processRecords now db rs = Except.error () :=
    processRecords_error_of_bad_status now r v hwf hst hbad rs hr db
  simp only [lambda_handler, hdev, hperr]
  rfl

/-- Witness for C3 amended at a concrete input: the single "offline"
heartbeat from the counterexample is rejected as a database error with the
database unchanged. -/
theorem C3_witness :
    lambda_handler (Event.single hbBadStatus) 100 dbWithRow =
      (Response.dbError, dbWithRow) :=
  C3_invalid_status_rejected (Event.single hbBadStatus) 100 dbWithRow
    [hbBadStatus] hbBadStatus "offline" (by rfl) (List.mem_singleton.mpr rfl)
    (by decide) (by rfl) (by decide)

/-! ## C5 -/

/-- Device_state row 130 seconds stale at time 1000. -/
def row130 : DeviceStateRow :=
  { device_id := "hvac-001", site_id := "building-a", last_seen_ts := 870,
    last_upload_ts := none, queue_depth := none, agent_version := none,
    poll_interval_s := none, cpu_pct := none, disk_free_gb := none,
    status := some "ready", updated_at := 870 }

/-- Device_state row 200 seconds stale at time 1000. -/
def row200 : DeviceStateRow :=
  { row130 with device_id := "hvac-002", last_seen_ts := 800, updated_at := 800 }

/-- Device_state row 121 seconds stale at time 1000. -/
def row121 : DeviceStateRow :=
  { row130 with device_id := "hvac-001", last_seen_ts := 879, updated_at := 879 }

/-- Device_state row 119 seconds stale at time 1000. -/
def row119 : DeviceStateRow :=
  { row130 with device_id := "hvac-002", last_seen_ts := 881, updated_at := 881 }

/-- Database whose device_state holds the less stale device first. -/
def dbStaleOrder : Database :=
  { sites := [sampleSite], devices := [sampleDevice, sampleDevice2],
    points := [], measurements := [], device_state := [row130, row200] }

/-- Database with one device just over and one just under the threshold. -/
def dbThreshold : Database :=
  { sites := [sampleSite], devices := [sampleDevice, sampleDevice2],
    points := [], measurements := [], device_state := [row121, row119] }

/-- Counterexample to C5 as stated: v_devices_stale has no ORDER BY, so its
rows come out in device_state order; with the less stale device stored first
the ages read [130, 200], which is not descending. -/
theorem C5_counterexample :
    (v_devices_stale dbStaleOrder 1000).map (fun r => r.age) = [130, 200]
    ∧ ¬ List.Pairwise (fun a b : Int => b ≤ a)
        ((v_devices_stale dbStaleOrder 1000).map (fun r => r.age)) := by
  constructor
  · rfl
  · intro hpair
    rw [show (v_devices_stale dbStaleOrder 1000).map (fun r => r.age) =
        [(130 : Int), 200] from rfl] at hpair
    have := List.rel_of_pairwise_cons hpair (List.mem_singleton.mpr rfl)
    omega

/-- C5 amended: a device_state row appears in v_devices_stale exactly when
now - last_seen_ts strictly exceeds 120 seconds, and every output row
carries age = now - last_seen_ts (which therefore exceeds 120); the view
itself guarantees no row order (the test harness adds ORDER BY age DESC when
querying it). -/
theorem C5_stale_membership (db : Database) (now : Int) :
    (∀ s ∈ db.device_state,
      (staleRowOf now s ∈ v_devices_stale db now ↔ 120 < now - s.last_seen_ts))
    ∧ ∀ r ∈ v_devices_stale db now, r.age = now - r.last_seen_ts ∧ 120 < r.age := by
  constructor
  · intro s hs
    constructor
    · intro hmem
      obtain ⟨s2, hs2, heq⟩ := List.mem_map.mp hmem
      have hpred := (List.mem_filter.mp hs2).2
      have hlast : s2.last_seen_ts = s.last_seen_ts :=
        congrArg StaleRow.last_seen_ts heq
      rw [← hlast]
      simpa using hpred
    · intro hlt
      exact List.mem_map.mpr ⟨s, List.mem_filter.mpr ⟨hs, by simpa using hlt⟩, rfl⟩
  · intro r hr
    obtain ⟨s2, hs2, heq⟩ := List.mem_map.mp hr
    have hpred := (List.mem_filter.mp hs2).2
    subst heq
    exact ⟨rfl, by simpa using hpred⟩

/-- Witness for C5 at a concrete input: the device 121 seconds stale appears
(with age 121 > 120), the one 119 seconds stale does not. -/
theorem C5_witness :
    (staleRowOf 1000 row121 ∈ v_devices_stale dbThreshold 1000)
    ∧ (staleRowOf 1000 row119 ∉ v_devices_stale dbThreshold 1000)
    ∧ (staleRowOf 1000 row121).age = 121 := by
  have h := C5_stale_membership dbThreshold 1000
  refine ⟨(h.1 row121 (by decide)).mpr (by decide), ?_, by decide⟩
  intro hmem
  have h119 := (h.1 row119 (by decide)).mp hmem
  exact absurd h119 (by decide)

/-! ## C4 -/

theorem sameKey_iff (a b : Measurement) :
    sameKey a b = true ↔
      a.site_id = b.site_id ∧ a.point_id = b.point_id ∧ a.ts_utc = b.ts_utc := by
  simp [sameKey, Bool.and_eq_true, and_assoc]

theorem sameKey_refl (a : Measurement) : sameKey a a = true := by
  simp [sameKey]

theorem sameKey_symm {a b : Measurement} (h : sameKey a b = true) :
    sameKey b a = true := by
  rw [sameKey_iff] at h ⊢
  obtain ⟨h1, h2, h3⟩ := h
  exact ⟨h1.symm, h2.symm, h3.symm⟩

theorem sameKey_trans {a b c : Measurement} (hab : sameKey a b = true)
    (hbc : sameKey b c = true) : sameKey a c = true := by
  rw [sameKey_iff] at hab hbc ⊢
  obtain ⟨h1, h2, h3⟩ := hab
  obtain ⟨g1, g2, g3⟩ := hbc
  exact ⟨h1.trans g1, h2.trans g2, h3.trans g3⟩

/-- The write keeps the primary-key constraint: keys stay pairwise distinct. -/
theorem uniqKeys_write (ms : List Measurement) (m : Measurement) (h : uniqKeys ms) :
    uniqKeys (writeMeasurement ms m) := by
  unfold writeMeasurement
  by_cases hany : ms.any (fun x => sameKey x m) = true
  · rw [if_pos hany]
    refine List.Pairwise.map _ ?_ h
    intro a b hab
    by_cases ham : sameKey a m = true
    · rw [if_pos ham]
      by_cases hbm : sameKey b m = true
      · exfalso
        have hkey := sameKey_trans ham (sameKey_symm hbm)
        rw [hab] at hkey
        cases hkey
      · rw [if_neg hbm]
        by_cases hmb : sameKey m b = true
        · exfalso
          have hkey := sameKey_trans ham hmb
          rw [hab] at hkey
          cases hkey
        · simpa using hmb
    · rw [if_neg ham]
      by_cases hbm : sameKey b m = true
      · rw [if_pos hbm]
        simpa using ham
      · rw [if_neg hbm]
        exact hab
  · rw [if_neg hany]
    have hnone := List.any_eq_false.mp (by simpa using hany)
    refine List.pairwise_append.mpr ⟨h, List.pairwise_singleton _ m, ?_⟩
    intro a ha b hb
    rw [List.mem_singleton.mp hb]
    simpa using hnone a ha

/-- When some stored row shares m's key, the replacing map leaves exactly m
holding that key. -/
theorem filter_map_replace (t : List Measurement) (m : Measurement)
    (h : uniqKeys t) (hany : t.any (fun x => sameKey x m) = true) :
    (t.map (fun x => if sameKey x m then m else x)).filter
      (fun x => sameKey x m) = [m] := by
  induction t with
  | nil => simp at hany
  | cons a t ih =>
    have hpc := List.pairwise_cons.mp h
    by_cases ham : sameKey a m = true
    · simp only [List.map_cons, if_pos ham]
      rw [@List.filter_cons_of_pos Measurement (fun x => sameKey x m) m _ (sameKey_refl m)]
      have hnone : ∀ x ∈ t, sameKey x m = false := by
        intro x hx
        by_cases hxm : sameKey x m = true
        · exfalso
          have hax : sameKey a x = false := hpc.1 x hx
          have : sameKey a x = true := sameKey_trans ham (sameKey_symm hxm)
          rw [hax] at this
          cases this
        · simpa using hxm
      have hmapnone : ∀ y ∈ t.map (fun x => if sameKey x m then m else x),
          ¬ sameKey y m = true := by
        intro y hy
        obtain ⟨x, hx, hfx⟩ := List.mem_map.mp hy
        rw [← hfx, if_neg (by simp [hnone x hx])]
        simp [hnone x hx]
      rw [List.filter_eq_nil_iff.mpr hmapnone]
    · simp only [List.map_cons, if_neg ham]
      rw [@List.filter_cons_of_neg Measurement (fun x => sameKey x m) a _ ham]
      refine ih hpc.2 ?_
      obtain ⟨x, hx, hxk⟩ := List.any_eq_true.mp hany
      rcases List.mem_cons.mp hx with rfl | hxt
      · exact absurd hxk ham
      · exact List.any_eq_true.mpr ⟨x, hxt, hxk⟩

/-- After writing m, exactly one stored row carries m's key, namely m. -/
theorem filter_write (ms : List Measurement) (m : Measurement) (h : uniqKeys ms) :
    (writeMeasurement ms m).filter (fun x => sameKey x m) = [m] := by
  unfold writeMeasurement
  by_cases hany : ms.any (fun x => sameKey x m) = true
  · rw [if_pos hany]
    exact filter_map_replace ms m h hany
  · rw [if_neg hany]
    have hnone := List.any_eq_false.mp (by simpa using hany)
    rw [List.filter_append,
      List.filter_eq_nil_iff.mpr hnone,
      @List.filter_cons_of_pos Measurement (fun x => sameKey x m) m _ (sameKey_refl m)]
    rfl

/-- Re-delivering the identical record is a no-op. -/
theorem writeMeasurement_idem (ns : List Measurement) (n : Measurement) :
    writeMeasurement (writeMeasurement ns n) n = writeMeasurement ns n := by
  unfold writeMeasurement
  by_cases hany : ns.any (fun x => sameKey x n) = true
  · rw [if_pos hany]
    have hany2 : (ns.map (fun x => if sameKey x n then n else x)).any
        (fun x => sameKey x n) = true := by
      obtain ⟨x, hx, hxk⟩ := List.any_eq_true.mp hany
      refine List.any_eq_true.mpr ⟨n, ?_, sameKey_refl n⟩
      exact List.mem_map.mpr ⟨x, hx, by rw [if_pos hxk]⟩
    rw [if_pos hany2, List.map_map]
    apply List.map_congr_left
    intro x hx
    simp only [Function.comp_apply]
    by_cases hxk : sameKey x n = true
    · rw [if_pos hxk, if_pos (sameKey_refl n)]
    · rw [if_neg hxk, if_neg hxk]
  · rw [if_neg hany]
    have hnone := List.any_eq_false.mp (by simpa using hany)
    have hany2 : (ns ++ [n]).any (fun x => sameKey x n) = true := by
      refine List.any_eq_true.mpr ⟨n, by simp, sameKey_refl n⟩
    rw [if_pos hany2, List.map_append]
    have h1 : ∀ x ∈ ns, (if sameKey x n = true then n else x) = x := by
      intro x hx
      rw [if_neg (hnone x hx)]
    rw [List.map_congr_left h1, List.map_id']
    simp [sameKey_refl n]

/-- C4: writing a measurement whose key already exists replaces the stored
row, so writing the same key twice leaves exactly one row for that key,
holding the second write's values; and re-delivering an identical record is
idempotent. -/
theorem C4_measurement_upsert (ms : List Measurement) (m1 m2 : Measurement)
    (huniq : uniqKeys ms) (hkey : sameKey m2 m1 = true) :
    (writeMeasurement (writeMeasurement ms m1) m2).filter
      (fun x => sameKey x m2) = [m2]
    ∧ ∀ (ns : List Measurement) (n : Measurement),
        writeMeasurement (writeMeasurement ns n) n = writeMeasurement ns n := by
  refine ⟨?_, fun ns n => writeMeasurement_idem ns n⟩
  exact filter_write _ m2 (uniqKeys_write ms m1 huniq)

/-- First measurement of point p1. -/
def measA : Measurement :=
  { site_id := "building-a", point_id := "p1", point_name := some "temp",
    unit := some "C", ts_utc := 10, value := some 1, quality := some 0,
    schema_version := 1, meta_hash := none }

/-- Same key as measA, different value. -/
def measB : Measurement :=
  { measA with value := some 2, quality := some 1 }

/-- A measurement of another point, already stored. -/
def measC : Measurement :=
  { measA with point_id := "p2", ts_utc := 5, value := some 7 }

/-- Witness for C4 at a concrete input: over the store [measC], writing measA
then measB (same key, different value) leaves exactly [measB] under that key. -/
theorem C4_witness :
    (writeMeasurement (writeMeasurement [measC] measA) measB).filter
      (fun x => sameKey x measB) = [measB] :=
  (C4_measurement_upsert [measC] measA measB (List.pairwise_singleton _ measC) (by decide)).1

/-! ## C8 -/

/-- A device of the deleted site is listed among the cascading device ids. -/
theorem mem_deadDevIds (db : Database) (s : String) (d : Device)
    (hd : d ∈ db.devices) (hs : d.site_id = s) :
    d.device_id ∈ (db.devices.filter (fun x => x.site_id == s)).map
      (fun x => x.device_id) :=
  List.mem_map.mpr ⟨d, List.mem_filter.mpr ⟨hd, by simp [hs]⟩, rfl⟩

/-- A point of the deleted site, or of a device of the deleted site, is dead. -/
theorem pointDead_of_site_or_device (db : Database) (s : String) (p : Point)
    (h : p.site_id = s ∨
      ∃ d ∈ db.devices, d.site_id = s ∧ p.device_id = some d.device_id) :
    (p.site_id == s || (match p.device_id with
      | some x => ((db.devices.filter (fun d => d.site_id == s)).map
          (fun d => d.device_id)).contains x
      | none => false)) = true := by
  rcases h with hsite | ⟨d, hd, hds, hpd⟩
  · simp [hsite]
  · rw [hpd]
    have := mem_deadDevIds db s d hd hds
    simp only [Bool.or_eq_true]
    right
    simpa using this

/-- C8: deleting a site removes (by the declared ON DELETE CASCADE chains)
every device and point of the site, every device_state row of the site or of
one of its devices, and every measurement of the site or of one of its
points; afterwards no surviving row references the deleted site directly or
through its devices and points. The cleanup is part of deleteSite itself —
the declarative cascade — not of any handler code. -/
theorem C8_site_delete_cascade (db : Database) (s : String) :
    (∀ x ∈ (deleteSite db s).sites, x.site_id ≠ s)
    ∧ (∀ d ∈ (deleteSite db s).devices, d.site_id ≠ s)
    ∧ (∀ p ∈ (deleteSite db s).points, p.site_id ≠ s ∧
        ∀ d ∈ db.devices, d.site_id = s → p.device_id ≠ some d.device_id)
    ∧ (∀ m ∈ (deleteSite db s).measurements, m.site_id ≠ s ∧
        ∀ p ∈ db.points, (p.site_id = s ∨
            ∃ d ∈ db.devices, d.site_id = s ∧ p.device_id = some d.device_id) →
          m.point_id ≠ p.point_id)
    ∧ (∀ r ∈ (deleteSite db s).device_state, r.site_id ≠ s ∧
        ∀ d ∈ db.devices, d.site_id = s → r.device_id ≠ d.device_id) := by
  refine ⟨?_, ?_, ?_, ?_, ?_⟩
  · intro x hx
    have hpred := (List.mem_filter.mp hx).2
    simpa using hpred
  · intro d hd
    have hpred := (List.mem_filter.mp hd).2
    simpa using hpred
  · intro p hp
    have hpred := (List.mem_filter.mp hp).2
    simp only [Bool.not_eq_eq_eq_not, Bool.not_true, Bool.or_eq_false_iff] at hpred
    constructor
    · have := hpred.1
      simpa using this
    · intro d hd hds hpd
      have hdead := pointDead_of_site_or_device db s p (Or.inr ⟨d, hd, hds, hpd⟩)
      rw [Bool.or_eq_true] at hdead
      rcases hdead with h1 | h2
      · rw [hpred.1] at h1
        cases h1
      · rw [hpred.2] at h2
        cases h2
  · intro m hm
    have hpred := (List.mem_filter.mp hm).2
    simp only [Bool.not_eq_eq_eq_not, Bool.not_true, Bool.or_eq_false_iff] at hpred
    constructor
    · have := hpred.1
      simpa using this
    · intro p hpts hbelongs heq
      have hdead := pointDead_of_site_or_device db s p hbelongs
      have hmem : p.point_id ∈ (db.points.filter (fun q => q.site_id == s ||
          (match q.device_id with
            | some x => ((db.devices.filter (fun d => d.site_id == s)).map
                (fun d => d.device_id)).contains x
            | none => false))).map (fun q => q.point_id) :=
        List.mem_map.mpr ⟨p, List.mem_filter.mpr ⟨hpts, hdead⟩, rfl⟩
      have hctrue : ((db.points.filter (fun q => q.site_id == s ||
          (match q.device_id with
            | some x => ((db.devices.filter (fun d => d.site_id == s)).map
                (fun d => d.device_id)).contains x
            | none => false))).map (fun q => q.point_id)).contains p.point_id = true := by
        simpa using hmem
      have hcfalse := hpred.2
      rw [heq] at hcfalse
      rw [hcfalse] at hctrue
      cases hctrue
  · intro r hr
    have hpred := (List.mem_filter.mp hr).2
    simp only [Bool.not_eq_eq_eq_not, Bool.not_true, Bool.or_eq_false_iff] at hpred
    constructor
    · have := hpred.1
      simpa using this
    · intro d hd hds heq
      have hmem := mem_deadDevIds db s d hd hds
      rw [← heq] at hmem
      have hctrue : ((db.devices.filter (fun x => x.site_id == s)).map
          (fun x => x.device_id)).contains r.device_id = true := by
        simpa using hmem
      rw [hpred.2] at hctrue
      cases hctrue

/-- A second site, surviving the deletion. -/
def siteB : Site :=
  { site_id := "building-b", display_name := "Building B", tz := "UTC", created_at := 0 }

/-- A device of the surviving site. -/
def devB8 : Device :=
  { device_id := "hvac-b-1", site_id := "building-b", model := none, created_at := 0 }

/-- A point of the deleted site, attached to one of its devices. -/
def ptA8 : Point :=
  { point_id := "p1", site_id := "building-a", device_id := some "hvac-001",
    point_name := "supply-temp", point_type := "analog", unit := some "C",
    tags := [], active := true, created_at := 0 }

/-- A point of the surviving site. -/
def ptB8 : Point :=
  { ptA8 with
    point_id := "p3"
    site_id := "building-b"
    device_id := some "hvac-b-1"
    point_name := "return-temp" }

/-- A measurement of the surviving site's point. -/
def measB8 : Measurement :=
  { site_id := "building-b", point_id := "p3", point_name := some "return-temp",
    unit := some "C", ts_utc := 20, value := some 3, quality := some 0,
    schema_version := 1, meta_hash := none }

/-- A device_state row of the surviving device. -/
def dsB8 : DeviceStateRow :=
  { device_id := "hvac-b-1", site_id := "building-b", last_seen_ts := 90,
    last_upload_ts := none, queue_depth := none, agent_version := none,
    poll_interval_s := none, cpu_pct := none, disk_free_gb := none,
    status := some "ready", updated_at := 90 }

/-- Two-site database exercised by the cascade witness. -/
def db8 : Database :=
  { sites := [sampleSite, siteB],
    devices := [sampleDevice, devB8],
    points := [ptA8, ptB8],
    measurements := [measA, measB8],
    device_state := [sampleOldRow, dsB8] }

/-- Witness for C8 at a concrete input: after deleting building-a from a
two-site database, building-b's device and measurement survive and the
theorem certifies they do not reference the deleted site. -/
theorem C8_witness :
    devB8 ∈ (deleteSite db8 "building-a").devices
    ∧ devB8.site_id ≠ "building-a"
    ∧ measB8 ∈ (deleteSite db8 "building-a").measurements
    ∧ measB8.site_id ≠ "building-a" := by
  refine ⟨by decide,
    (C8_site_delete_cascade db8 "building-a").2.1 devB8 (by decide),
    by decide,
    ((C8_site_delete_cascade db8 "building-a").2.2.2.1 measB8 (by decide)).1⟩

/-! ## C6 -/

/-- The ORDER BY key is total. -/
theorem rowLE_total (a b : Measurement) : (rowLE a b || rowLE b a) = true := by
  unfold rowLE
  by_cases hab : a.point_id = b.point_id
  · rw [if_pos (by simpa using hab), if_pos (by simpa using hab.symm)]
    rcases le_total a.ts_utc b.ts_utc with h | h
    · simp [h]
    · simp [h]
  · rw [if_neg (by simpa using hab), if_neg (by simpa using (Ne.symm hab))]
    rcases lt_or_gt_of_ne hab with h | h
    · simp [h]
    · simp [h]

/-- The ORDER BY key is transitive. -/
theorem rowLE_trans (a b c : Measurement) (h1 : rowLE a b = true)
    (h2 : rowLE b c = true) : rowLE a c = true := by
  unfold rowLE at h1 h2 ⊢
  by_cases hab : a.point_id = b.point_id
  · by_cases hbc : b.point_id = c.point_id
    · have hac : a.point_id = c.point_id := hab.trans hbc
      rw [if_pos (by simpa using hab)] at h1
      rw [if_pos (by simpa using hbc)] at h2
      rw [if_pos (by simpa using hac)]
      exact decide_eq_true (le_trans (of_decide_eq_true h2) (of_decide_eq_true h1))
    · have hac : a.point_id ≠ c.point_id := by rw [hab]; exact hbc
      rw [if_neg (by simpa using hbc)] at h2
      rw [if_neg (by simpa using hac)]
      exact decide_eq_true (by rw [hab]; exact of_decide_eq_true h2)
  · by_cases hbc : b.point_id = c.point_id
    · have hac : a.point_id ≠ c.point_id := by rw [← hbc]; exact hab
      rw [if_neg (by simpa using hab)] at h1
      rw [if_neg (by simpa using hac)]
      exact decide_eq_true (by rw [← hbc]; exact of_decide_eq_true h1)
    · rw [if_neg (by simpa using hab)] at h1
      rw [if_neg (by simpa using hbc)] at h2
      have hlt := lt_trans (of_decide_eq_true h1) (of_decide_eq_true h2)
      rw [if_neg (by simpa using ne_of_lt hlt)]
      exact decide_eq_true hlt

/-- Every output row of DISTINCT ON comes from the scanned list. -/
theorem mem_of_mem_distinctOnPoint (l : List Measurement) (x : Measurement)
    (h : x ∈ distinctOnPoint l) : x ∈ l := by
  induction l using distinctOnPoint.induct with
  | case1 => simp [distinctOnPoint] at h
  | case2 m rest ih =>
    rw [show distinctOnPoint (m :: rest) =
      m :: distinctOnPoint (rest.filter (fun y => !(y.point_id == m.point_id)))
      from by simp only [distinctOnPoint]] at h
    rcases List.mem_cons.mp h with rfl | h2
    · exact List.mem_cons_self _ _
    · exact List.mem_cons_of_mem _ ((List.filter_sublist rest).subset (ih h2))

/-- DISTINCT ON keeps at most one row per point. -/
theorem distinctOnPoint_pairwise (l : List Measurement) :
    (distinctOnPoint l).Pairwise (fun a b => a.point_id ≠ b.point_id) := by
  induction l using distinctOnPoint.induct with
  | case1 => simp [distinctOnPoint]
  | case2 m rest ih =>
    rw [show distinctOnPoint (m :: rest) =
      m :: distinctOnPoint (rest.filter (fun y => !(y.point_id == m.point_id)))
      from by simp only [distinctOnPoint]]
    refine List.pairwise_cons.mpr ⟨?_, ih⟩
    intro b hb
    have hbf := mem_of_mem_distinctOnPoint _ b hb
    have hpred := (List.mem_filter.mp hbf).2
    intro heq
    rw [heq] at hpred
    simp at hpred

/-- Over a list sorted by the ORDER BY key, each kept row has the maximal
timestamp among the scanned rows of its point. -/
theorem distinctOnPoint_max (l : List Measurement)
    (hsorted : l.Pairwise (fun a b => rowLE a b = true)) :
    ∀ x ∈ distinctOnPoint l, ∀ y ∈ l, y.point_id = x.point_id →
      y.ts_utc ≤ x.ts_utc := by
  induction l using distinctOnPoint.induct with
  | case1 =>
    intro x hx
    simp [distinctOnPoint] at hx
  | case2 m rest ih =>
    intro x hx y hy hpt
    have hpc := List.pairwise_cons.mp hsorted
    rw [show distinctOnPoint (m :: rest) =
      m :: distinctOnPoint (rest.filter (fun z => !(z.point_id == m.point_id)))
      from by simp only [distinctOnPoint]] at hx
    rcases List.mem_cons.mp hx with rfl | hx2
    · rcases List.mem_cons.mp hy with rfl | hy2
      · exact le_refl _
      · have hle := hpc.1 y hy2
        unfold rowLE at hle
        rw [if_pos (by simpa using hpt.symm)] at hle
        exact of_decide_eq_true hle
    · have hxf := mem_of_mem_distinctOnPoint _ x hx2
      have hxne : x.point_id ≠ m.point_id := by
        have := (List.mem_filter.mp hxf).2
        simpa using this
      have hrec := ih (List.Pairwise.sublist (List.filter_sublist rest) hpc.2) x hx2
      rcases List.mem_cons.mp hy with rfl | hy2
      · exact absurd hpt.symm hxne
      · have hyne : y.point_id ≠ m.point_id := by rw [hpt]; exact hxne
        have hyf : y ∈ rest.filter (fun z => !(z.point_id == m.point_id)) :=
          List.mem_filter.mpr ⟨hy2, by simpa using hyne⟩
        exact hrec y hyf hpt

/-- A measurement tied with measA for DISTINCT ON but with a distinct
primary key: same point_id "p1" and same ts_utc, different site_id
(building-b). The measurements primary key is the full triple
(site_id, point_id, ts_utc), and the table's two foreign keys (to sites and
to points) are independent — nothing forces a measurement's site_id to equal
its point's site_id — so this pair of rows is a schema-valid table state, yet
the two rows tie on the view's ORDER BY key (point_id, ts_utc DESC). -/
def measTie : Measurement :=
  { measA with
    site_id := "building-b"
    value := some 2
    quality := some 1 }

/-- Sorted order on [measA, measTie]: same point, same timestamp, tie. -/
theorem sortATie : [measA, measTie].mergeSort rowLE = [measA, measTie] :=
  List.mergeSort_of_sorted (by decide)

theorem sortTieA : [measTie, measA].mergeSort rowLE = [measTie, measA] :=
  List.mergeSort_of_sorted (by decide)

/-- v_point_latest over the physical order measA before measTie keeps measA. -/
theorem viewATie : v_point_latest [measA, measTie] = [latestRowOf measA] := by
  unfold v_point_latest
  rw [sortATie]
  rw [show distinctOnPoint [measA, measTie] =
    measA :: distinctOnPoint ([measTie].filter (fun y => !(y.point_id == measA.point_id)))
    from by simp only [distinctOnPoint]]
  rw [show [measTie].filter (fun y => !(y.point_id == measA.point_id)) = ([] : List Measurement)
    from by decide]
  rw [show distinctOnPoint ([] : List Measurement) = [] from by simp only [distinctOnPoint]]
  rfl

/-- v_point_latest over the physical order measTie before measA keeps measTie. -/
theorem viewTieA : v_point_latest [measTie, measA] = [latestRowOf measTie] := by
  unfold v_point_latest
  rw [sortTieA]
  rw [show distinctOnPoint [measTie, measA] =
    measTie :: distinctOnPoint ([measA].filter (fun y => !(y.point_id == measTie.point_id)))
    from by simp only [distinctOnPoint]]
  rw [show [measA].filter (fun y => !(y.point_id == measTie.point_id)) = ([] : List Measurement)
    from by decide]
  rw [show distinctOnPoint ([] : List Measurement) = [] from by simp only [distinctOnPoint]]
  rfl

/-- Counterexample to C6 as stated: a schema-valid table state — the two rows
have distinct primary keys (they differ in site_id), so uniqKeys holds — in
which one point has two measurements tied at the maximal timestamp with
different values. The stored measurements are the same multiset (a
permutation), yet the view picks a different one of the two tied rows
depending on the physical scan order: the DDL's ORDER BY
(point_id, ts_utc DESC) gives no tiebreaker, so the choice is not determined
by the stored measurements. -/
theorem C6_counterexample :
    uniqKeys [measA, measTie]
    ∧ measA.point_id = measTie.point_id
    ∧ measA.ts_utc = measTie.ts_utc
    ∧ measA.value ≠ measTie.value
    ∧ [measA, measTie].Perm [measTie, measA]
    ∧ v_point_latest [measA, measTie] ≠ v_point_latest [measTie, measA] := by
  refine ⟨by unfold uniqKeys; decide, by decide, by decide, by decide,
    List.Perm.swap measTie measA [], ?_⟩
  rw [viewATie, viewTieA]
  decide

/-- C6 amended: v_point_latest is deterministic only relative to the physical
scan order (so repeated reads of one materialization agree): every output row
is latestRowOf of some stored measurement, its timestamp is maximal among the
stored rows of its point, and the view holds at most one row per point; which
of several tied maximal rows is kept depends on the scan order, not on the
stored multiset. -/
theorem C6_latest_per_point (ms : List Measurement) :
    (∀ r ∈ v_point_latest ms, r ∈ ms.map latestRowOf)
    ∧ (∀ r ∈ v_point_latest ms, ∀ y ∈ ms, y.point_id = r.point_id →
        y.ts_utc ≤ r.last_ts_utc)
    ∧ (∀ r1 ∈ v_point_latest ms, ∀ r2 ∈ v_point_latest ms,
        r1.point_id = r2.point_id → r1 = r2) := by
  have hsorted : (ms.mergeSort rowLE).Pairwise (fun a b => rowLE a b = true) :=
    List.sorted_mergeSort rowLE_trans rowLE_total ms
  refine ⟨?_, ?_, ?_⟩
  · intro r hr
    obtain ⟨x, hx, rfl⟩ := List.mem_map.mp hr
    have hxl := mem_of_mem_distinctOnPoint _ x hx
    exact List.mem_map.mpr ⟨x, List.mem_mergeSort.mp hxl, rfl⟩
  · intro r hr y hy hpt
    obtain ⟨x, hx, rfl⟩ := List.mem_map.mp hr
    exact distinctOnPoint_max _ hsorted x hx y (List.mem_mergeSort.mpr hy) hpt
  · intro r1 hr1 r2 hr2 hpt
    obtain ⟨x1, hx1, rfl⟩ := List.mem_map.mp hr1
    obtain ⟨x2, hx2, rfl⟩ := List.mem_map.mp hr2
    by_cases hx : x1 = x2
    · rw [hx]
    · have hpair := distinctOnPoint_pairwise (ms.mergeSort rowLE)
      have hsym : Symmetric (fun a b : Measurement => a.point_id ≠ b.point_id) :=
        fun a b h heq => h heq.symm
      have hne := List.Pairwise.forall hsym hpair hx1 hx2 hx
      exact absurd hpt hne

/-- Witness for C6 amended at a concrete input: the kept row for the tied
point comes from the stored list and its timestamp dominates the other tied
measurement. -/
theorem C6_witness :
    latestRowOf measA ∈ [measA, measTie].map latestRowOf
    ∧ measTie.ts_utc ≤ (latestRowOf measA).last_ts_utc := by
  have h := C6_latest_per_point [measA, measTie]
  have hmem : latestRowOf measA ∈ v_point_latest [measA, measTie] := by
    rw [viewATie]
    exact List.mem_singleton.mpr rfl
  exact ⟨h.1 (latestRowOf measA) hmem,
    h.2.1 (latestRowOf measA) hmem measTie (by decide) (by decide)⟩

end HvacDb
